import Mathlib

/-!
# Verification of the news hot-list pipeline (`src/main.py`)

Shallow embedding of the scoring-and-refresh pipeline:

* `update_hot_list` — one refresh cycle: fetch outcome → per-event scoring →
  stable descending sort → truncation to 50 → publish to the cache.
* `scheduler_step` / `scheduler_run` — the background scheduler loop with its
  outer `except Exception` guard.

Idealizations, each noted at the definition it concerns:

* Python floats are modelled as exact rationals (`ℚ`), and the score value
  `P / (T + 2) ** 1.8` as the exact real (`ℝ`) it denotes.  A scored event
  stores the pair (importance, clamped age) that determines its score;
  `ScoredEvent.score` is the real number the Python dict's `score` field holds.
* The current UTC instant `datetime.now(timezone.utc)` is modelled at whole
  epoch-second resolution (`now : ℤ`).
* JSON field values are `null`, booleans, numbers and strings; nested
  arrays/objects behave like `null`/non-strings for every operation the code
  performs on field values and are not separately represented.
-/

namespace NewsBackend

/-- A JSON-like field value as produced by `response.json()`. -/
inductive Value where
  | vNull
  | vBool (b : Bool)
  | vNum (q : ℚ)
  | vStr (s : String)
deriving DecidableEq

/-- One element of `data["articles"]`: a dict; `.get(k)` is `Option.getD`
on the optional field (`none` = key absent). -/
structure RawEvent where
  group_title : Option Value := none
  group_summary : Option Value := none
  importance : Option Value := none
  earliest_published : Option Value := none
deriving DecidableEq

/-- ASCII whitespace: the characters matched by `\s` in CPython's
`_strptime` regex and stripped by `float()` (restricted to ASCII). -/
def isWs (c : Char) : Bool :=
  c = ' ' || c = '\t' || c = '\n' || c = '\r' || c = '\x0b' || c = '\x0c'

def pDigit? (c : Char) : Option ℕ :=
  if c.isDigit then some (c.toNat - 48) else none

/-! ## `float(str)` — CPython's decimal float literal grammar

`P = float(event.get("importance", 0))`, `src/main.py:58`.  The string case
follows CPython: optional surrounding whitespace, optional sign, a mantissa
`digits`, `digits.`, `digits.digits` or `.digits`, an optional exponent, with
underscores allowed between digits.  The literal is read as the exact rational
it denotes; `inf`/`nan` literals have no counterpart in the real-number
idealization and are treated as failures. -/

/-- Numeric value of a digit run, skipping underscores. -/
def digitRunVal (cs : List Char) : ℕ :=
  cs.foldl (fun acc c => if c = '_' then acc else acc * 10 + (c.toNat - 48)) 0

/-- Number of decimal digits in a run (underscores do not count). -/
def digitCount (cs : List Char) : ℕ := (cs.filter (fun c => c != '_')).length

/-- `digit ('_'? digit)*`: nonempty, starts and ends with a digit, no two
adjacent underscores. -/
def validDigitRun (cs : List Char) : Bool :=
  match cs with
  | [] => false
  | c :: rest => c.isDigit && go rest c
where
  go : List Char → Char → Bool
  | [], last => last.isDigit
  | c :: rest, last => (if c = '_' then last.isDigit else c.isDigit) && go rest c

def isDigitOrU (c : Char) : Bool := c.isDigit || c = '_'

/-- Mantissa: `digits`, `digits.`, `digits.digits` or `.digits`. -/
def parseMantissa (cs : List Char) : Option (ℚ × List Char) :=
  let intRun := cs.takeWhile isDigitOrU
  let rest1 := cs.dropWhile isDigitOrU
  match rest1 with
  | '.' :: rest2 =>
    let fracRun := rest2.takeWhile isDigitOrU
    let rest3 := rest2.dropWhile isDigitOrU
    if intRun.isEmpty then
      if validDigitRun fracRun then
        some ((digitRunVal fracRun : ℚ) / (10 : ℚ) ^ digitCount fracRun, rest3)
      else none
    else
      if validDigitRun intRun && (fracRun.isEmpty || validDigitRun fracRun) then
        some ((digitRunVal intRun : ℚ)
          + (digitRunVal fracRun : ℚ) / (10 : ℚ) ^ digitCount fracRun, rest3)
      else none
  | _ =>
    if validDigitRun intRun then some ((digitRunVal intRun : ℚ), rest1) else none

/-- Optional exponent `e[+-]?digits` (absent exponent = `10^0`). -/
def parseExponent (cs : List Char) : Option (ℤ × List Char) :=
  match cs with
  | 'e' :: rest | 'E' :: rest =>
    let sr : ℤ × List Char :=
      match rest with
      | '+' :: r => (1, r)
      | '-' :: r => (-1, r)
      | r => (1, r)
    let run := sr.2.takeWhile isDigitOrU
    if validDigitRun run then some (sr.1 * digitRunVal run, sr.2.dropWhile isDigitOrU)
    else none
  | rest => some (0, rest)

/-- Python `float(s)` on a finite decimal literal, as the exact rational. -/
def pyFloatOfString (s : String) : Option ℚ :=
  let cs := ((s.data.dropWhile isWs).reverse.dropWhile isWs).reverse
  let sc : ℚ × List Char :=
    match cs with
    | '+' :: r => (1, r)
    | '-' :: r => (-1, r)
    | r => (1, r)
  match parseMantissa sc.2 with
  | none => none
  | some (m, rest) =>
    match parseExponent rest with
    | some (e, []) => some (sc.1 * m * (10 : ℚ) ^ e)
    | _ => none

/-- Python `float(v)`: numbers are returned exactly, booleans coerce to 0/1,
strings go through the literal grammar; `None` (and any other non-numeric,
non-string value) raises `TypeError`, modelled as `none`. -/
def pyFloat : Value → Option ℚ
  | .vNum q => some q
  | .vBool b => some (if b then 1 else 0)
  | .vNull => none
  | .vStr s => pyFloatOfString s

/-! ## `s.split(" ")` and `" ".join` — `src/main.py:62-63`

Python's `str.split(" ")` splits at every single space character, producing
empty tokens for consecutive spaces (it is not whitespace-tokenisation). -/

def pySplitSpace : List Char → List (List Char)
  | [] => [[]]
  | c :: rest =>
    if c = ' ' then [] :: pySplitSpace rest
    else
      match pySplitSpace rest with
      | [] => [[c]]
      | t :: ts => (c :: t) :: ts

def joinSpace : List (List Char) → List Char
  | [] => []
  | [t] => t
  | t :: ts => t ++ ' ' :: joinSpace ts

/-! ## `datetime.strptime(s, "%Y-%m-%d %H:%M:%S")` — `src/main.py:64-65`

CPython compiles the format to the regex
`(?P<Y>\d\d\d\d)-(?P<m>1[0-2]|0[1-9]|[1-9])-(?P<d>3[01]|[12]\d|0[1-9]|[1-9])`
`\s+(?P<H>2[0-3]|[0-1]\d|\d):(?P<M>[0-5]\d|\d):(?P<S>6[0-1]|[0-5]\d|\d)`
(the literal space in the format matches a whitespace run `\s+`), takes the
leftmost match in backtracking preference order, raises `ValueError` if input
remains after the match ("unconverted data remains"), and then the `datetime`
constructor validates the field ranges (day within month, second ≤ 59).
Each component below returns its candidate parses in regex preference order;
sequencing via `flatMap` reproduces the backtracking search. -/

structure DateTime where
  year : ℕ
  month : ℕ
  day : ℕ
  hour : ℕ
  minute : ℕ
  second : ℕ
deriving DecidableEq

def digRange (lo hi : ℕ) (c : Char) : Option ℕ :=
  match pDigit? c with
  | some d => if lo ≤ d ∧ d ≤ hi then some d else none
  | none => none

/-- A two-character alternative such as `1[0-2]`. -/
def alt2 (p1 p2 : Char → Option ℕ) (f : ℕ → ℕ → ℕ) : List Char → List (ℕ × List Char)
  | a :: b :: rest =>
    match p1 a, p2 b with
    | some x, some y => [(f x y, rest)]
    | _, _ => []
  | _ => []

/-- A one-character alternative such as `[1-9]`. -/
def alt1 (p : Char → Option ℕ) : List Char → List (ℕ × List Char)
  | a :: rest =>
    match p a with
    | some x => [(x, rest)]
    | none => []
  | [] => []

def tens (a b : ℕ) : ℕ := 10 * a + b

/-- `%Y` = `\d\d\d\d`. -/
def pYear : List Char → List (ℕ × List Char)
  | a :: b :: c :: d :: rest =>
    match pDigit? a, pDigit? b, pDigit? c, pDigit? d with
    | some x, some y, some z, some w => [(((x * 10 + y) * 10 + z) * 10 + w, rest)]
    | _, _, _, _ => []
  | _ => []

/-- `%m` = `1[0-2]|0[1-9]|[1-9]`. -/
def pMonth (cs : List Char) : List (ℕ × List Char) :=
  alt2 (digRange 1 1) (digRange 0 2) tens cs
    ++ alt2 (digRange 0 0) (digRange 1 9) tens cs
    ++ alt1 (digRange 1 9) cs

/-- `%d` = `3[01]|[12]\d|0[1-9]|[1-9]`. -/
def pDay (cs : List Char) : List (ℕ × List Char) :=
  alt2 (digRange 3 3) (digRange 0 1) tens cs
    ++ alt2 (digRange 1 2) (digRange 0 9) tens cs
    ++ alt2 (digRange 0 0) (digRange 1 9) tens cs
    ++ alt1 (digRange 1 9) cs

/-- `%H` = `2[0-3]|[0-1]\d|\d`. -/
def pHour (cs : List Char) : List (ℕ × List Char) :=
  alt2 (digRange 2 2) (digRange 0 3) tens cs
    ++ alt2 (digRange 0 1) (digRange 0 9) tens cs
    ++ alt1 (digRange 0 9) cs

/-- `%M` = `[0-5]\d|\d`. -/
def pMinute (cs : List Char) : List (ℕ × List Char) :=
  alt2 (digRange 0 5) (digRange 0 9) tens cs
    ++ alt1 (digRange 0 9) cs

/-- `%S` = `6[0-1]|[0-5]\d|\d` (60/61 survive the regex and are rejected by
the `datetime` constructor, see `validDate`). -/
def pSecond (cs : List Char) : List (ℕ × List Char) :=
  alt2 (digRange 6 6) (digRange 0 1) tens cs
    ++ alt2 (digRange 0 5) (digRange 0 9) tens cs
    ++ alt1 (digRange 0 9) cs

/-- A literal character of the format (`-`, `:`). -/
def pLit (ch : Char) : List Char → List (List Char)
  | c :: rest => if c = ch then [rest] else []
  | [] => []

/-- `\s+`: candidates longest first (greedy with backtracking). -/
def pWs (cs : List Char) : List (List Char) :=
  let n := (cs.takeWhile isWs).length
  (List.range n).map fun k => cs.drop (n - k)

/-- All matches of the compiled pattern, in regex preference order. -/
def matchPattern (cs : List Char) : List (DateTime × List Char) :=
  (pYear cs).flatMap fun yr =>
  (pLit '-' yr.2).flatMap fun r2 =>
  (pMonth r2).flatMap fun mo =>
  (pLit '-' mo.2).flatMap fun r4 =>
  (pDay r4).flatMap fun dy =>
  (pWs dy.2).flatMap fun r6 =>
  (pHour r6).flatMap fun hr =>
  (pLit ':' hr.2).flatMap fun r8 =>
  (pMinute r8).flatMap fun mi =>
  (pLit ':' mi.2).flatMap fun r10 =>
  (pSecond r10).map fun sc =>
    (⟨yr.1, mo.1, dy.1, hr.1, mi.1, sc.1⟩, sc.2)

def leapYear (y : ℕ) : Bool := y % 4 = 0 && (y % 100 != 0 || y % 400 = 0)

def daysInMonth (y m : ℕ) : ℕ :=
  if m = 2 then (if leapYear y then 29 else 28)
  else if m = 4 ∨ m = 6 ∨ m = 9 ∨ m = 11 then 30
  else 31

/-- Range checks done by the `datetime` constructor (`MINYEAR = 1`; the regex
already guarantees month 1-12, day ≥ 1, hour ≤ 23, minute ≤ 59). -/
def validDate (dt : DateTime) : Bool :=
  decide (1 ≤ dt.year) && decide (dt.day ≤ daysInMonth dt.year dt.month)
    && decide (dt.second ≤ 59)

/-- `datetime.strptime(·, "%Y-%m-%d %H:%M:%S")`: leftmost regex match, then
the unconverted-data check, then constructor validation; any failure raises
`ValueError`, modelled as `none`. -/
def strptimeYmdHms (cs : List Char) : Option DateTime :=
  match matchPattern cs with
  | [] => none
  | (dt, rest) :: _ => if rest.isEmpty && validDate dt then some dt else none

/-- `" ".join(s.split(" ")[0:2])`, `src/main.py:62-63`. -/
def date_str_part (s : String) : List Char :=
  joinSpace ((pySplitSpace s.data).take 2)

/-- The code's whole timestamp-parsing path, `src/main.py:62-65`. -/
def parse_publish_date (s : String) : Option DateTime :=
  strptimeYmdHms (date_str_part s)

/-! ## Epoch seconds

`publish_date.replace(tzinfo=timezone.utc)` is read as a UTC instant; we map
it to seconds since 1970-01-01 00:00:00 UTC with the standard civil-calendar
day count. -/

/-- Days from 0000-03-01 to the given civil date (valid for year ≥ 1). -/
def civilDays (y m d : ℕ) : ℕ :=
  let y2 := if m ≤ 2 then y - 1 else y
  let m2 := if m ≤ 2 then m + 9 else m - 3
  365 * y2 + y2 / 4 - y2 / 100 + y2 / 400 + (153 * m2 + 2) / 5 + (d - 1)

/-- UTC epoch seconds of a parsed timestamp. -/
def toEpoch (dt : DateTime) : ℤ :=
  ((civilDays dt.year dt.month dt.day : ℤ) - (civilDays 1970 1 1 : ℤ)) * 86400
    + dt.hour * 3600 + dt.minute * 60 + dt.second

/-! ## Scoring — `src/main.py:54-96` -/

/-- One entry of `scored_events` / the cache, `src/main.py:79-84`.  The Python
dict stores `title`, `summary`, `published_at` and the float `score`; the
float is represented exactly by the pair (`scoreP`, `ageSec`) that determines
it: `scoreP` is `P = float(event.get("importance", 0))` and `ageSec` the
clamped age in seconds.  Clamping `T = age/3600` hours at 0 (`src/main.py:73-74`)
is the same as clamping the age in seconds at 0, which is `Int.toNat`; storing
the age as `ℕ` records that invariant.  `ScoredEvent.score` below recovers the
real number the `score` field holds. -/
structure ScoredEvent where
  title : Option Value
  summary : Option Value
  published_at : Option Value
  scoreP : ℚ
  ageSec : ℕ
deriving DecidableEq

/-- `score = P / ((T + 2) ** G)` with `T = ageSec/3600` hours and `G = 1.8`,
`src/main.py:68-76`, as an exact real number. -/
noncomputable def ScoredEvent.score (e : ScoredEvent) : ℝ :=
  (e.scoreP : ℝ) / (((e.ageSec : ℝ) / 3600 + 2) ^ (1.8 : ℝ))

/-- The body of the `for event in events` loop, `src/main.py:56-96`.
`.ok none`: a `ValueError`/`TypeError`/`KeyError` was caught by the handler at
line 92 and the event is skipped.  `.error ()`: `event.get("earliest_published", "")`
returned a non-string, so `.split(" ")` raised `AttributeError` (line 62-63),
which the handler does **not** catch — the exception escapes `update_hot_list`.
Note the order: `float(...)` (line 58) runs first, so an uncoercible
importance skips the event before the timestamp is touched. -/
def processEvent (now : ℤ) (ev : RawEvent) : Except Unit (Option ScoredEvent) :=
  match pyFloat (ev.importance.getD (.vNum 0)) with
  | none => .ok none
  | some P =>
    match ev.earliest_published.getD (.vStr "") with
    | .vStr s =>
      match parse_publish_date s with
      | none => .ok none
      | some dt =>
        .ok (some { title := ev.group_title, summary := ev.group_summary,
                    published_at := ev.earliest_published,
                    scoreP := P, ageSec := (now - toEpoch dt).toNat })
    | _ => .error ()

/-- The whole loop: events processed left to right, skipped events contribute
nothing, an uncaught exception aborts the loop (and `update_hot_list`). -/
def processEvents (now : ℤ) : List RawEvent → Except Unit (List ScoredEvent)
  | [] => .ok []
  | ev :: rest =>
    match processEvent now ev with
    | .error e => .error e
    | .ok none => processEvents now rest
    | .ok (some se) => (processEvents now rest).map (se :: ·)

/-- `a` may precede `b` in the descending sort: `score b ≤ score a`, rendered
on the exact integer representation.  For `p = n/d` (`d > 0`) and clamped ages,
`p₁/((a₁+7200)/3600)^1.8 ≤ p₂/((a₂+7200)/3600)^1.8` iff
`n₁^5·d₂^5·(a₂+7200)^9 ≤ n₂^5·d₁^5·(a₁+7200)^9` — raising to the 5th power
turns the exponent 1.8 into the integer 9 and is strictly monotone (odd
power); see `score_le_score_iff`. -/
def scoreGe (a b : ScoredEvent) : Prop :=
  b.scoreP.num ^ 5 * (a.scoreP.den : ℤ) ^ 5 * ((a.ageSec : ℤ) + 7200) ^ 9
    ≤ a.scoreP.num ^ 5 * (b.scoreP.den : ℤ) ^ 5 * ((b.ageSec : ℤ) + 7200) ^ 9

instance : DecidableRel scoreGe := fun a b => by unfold scoreGe; infer_instance

/-- `scored_events.sort(key=lambda x: x["score"], reverse=True)`,
`src/main.py:99`: Python's sort is stable, and with `reverse=True` it orders
by key descending with ties kept in original order.  Any stable sort computes
that unique result; we use `List.insertionSort`, which is stable. -/
def rankSort (l : List ScoredEvent) : List ScoredEvent := List.insertionSort scoreGe l

/-! ## One refresh cycle and the scheduler — `src/main.py:26-127` -/

/-- Outcome of the fetch block, `src/main.py:33-52`.  `failure` covers every
exception path caught at lines 46-52: `httpx.RequestError`, the
`HTTPStatusError` raised by `raise_for_status()` for a non-2xx status, a
malformed JSON body — all make `update_hot_list` return early.  `success d`
is a parsed dict body, `d = none` when the `"articles"` key is absent
(`data.get("articles", [])`, line 45). -/
inductive FetchResult where
  | failure
  | success (articles : Option (List RawEvent))

/-- `update_hot_list`, `src/main.py:26-109`: the cache (global
`hot_list_cache`) is passed and returned explicitly; `.error ()` is an
exception escaping the function (the cache is then left untouched, since the
only assignment, line 103, was not reached). -/
def update_hot_list (r : FetchResult) (cache : List ScoredEvent) (now : ℤ) :
    Except Unit (List ScoredEvent) :=
  match r with
  | .failure => .ok cache
  | .success articles =>
    match processEvents now (articles.getD []) with
    | .error e => .error e
    | .ok scored => .ok ((rankSort scored).take 50)

/-- One iteration of the `while True` loop in `background_scheduler`,
`src/main.py:119-127`: `update_hot_list` runs under `except Exception`, so an
escaping exception is logged and the cache keeps its previous value. -/
def scheduler_step (r : FetchResult) (now : ℤ) (cache : List ScoredEvent) :
    List ScoredEvent :=
  match update_hot_list r cache now with
  | .ok c => c
  | .error _ => cache

/-- The cache after `n` scheduler cycles, given each cycle's fetch outcome and
clock reading; the initial cache is the empty list (`src/main.py:19`). -/
def scheduler_run (env : ℕ → FetchResult × ℤ) : ℕ → List ScoredEvent
  | 0 => []
  | n + 1 => scheduler_step (env n).1 (env n).2 (scheduler_run env n)


/-! Concrete fixtures used by the witness and counterexample theorems. -/

/-- Event timestamp of the spec's end-to-end scenario. -/
def ts0 : String := "2025-06-18 09:00:00 Wed"

/-- Its parse under the fixed pattern. -/
def dt0 : DateTime := ⟨2025, 6, 18, 9, 0, 0⟩

/-- The spec scenario's mocked "now": 2025-06-18 11:00:00 UTC. -/
def now0 : ℤ := 1750244400

/-- A well-formed event with the given importance. -/
def evGood (i : ℚ) : RawEvent :=
  { importance := some (.vNum i), earliest_published := some (.vStr ts0) }

/-- An event whose `earliest_published` is present but not a string:
`.split(" ")` raises `AttributeError` on it. -/
def evBadTs : RawEvent :=
  { importance := some (.vNum 1), earliest_published := some (.vNum 0) }

/-- An event whose importance is present but not coercible to float. -/
def evNullImp : RawEvent :=
  { importance := some .vNull, earliest_published := some (.vStr ts0) }

/-- An event with only a (well-formed) timestamp: title, summary and
importance keys all absent. -/
def evBare : RawEvent := { earliest_published := some (.vStr ts0) }

/-- An event whose `earliest_published` is a string that does not parse. -/
def evBadStr : RawEvent :=
  { importance := some (.vNum 3), earliest_published := some (.vStr "yesterday") }

/-- A nonempty prior cache content. -/
def se10 : ScoredEvent :=
  { title := none, summary := none, published_at := none, scoreP := 10, ageSec := 0 }

/-- An environment whose every cycle fetches one `evBadTs`. -/
def envErr : ℕ → FetchResult × ℤ := fun _ => (.success (some [evBadTs]), now0)

/-- A batch of 51 well-formed events. -/
def batch51 : List RawEvent := (List.range 51).map fun i => evGood i

/-- Spec-side timestamp parsing, for comparison with `parse_publish_date`.
Modelled from the spec: "Parse `earliest_published` by taking its first two
whitespace-separated tokens (date and time) and joining them; parse as UTC
date-time using the fixed pattern."  Whitespace-separated tokens are maximal
nonempty runs of non-whitespace characters. -/
def specParsePublishDate (s : String) : Option DateTime :=
  strptimeYmdHms (joinSpace (((s.data.splitOnP isWs).filter (·.isEmpty = false)).take 2))

end NewsBackend

namespace NewsBackend

/-! Correctness of the integer rendering of the score order. -/

lemma rpow_nine_of_five {u : ℝ} (hu : 0 ≤ u) :
    (u ^ (1.8 : ℝ)) ^ (5 : ℕ) = u ^ (9 : ℕ) := by
  rw [← Real.rpow_natCast (u ^ (1.8 : ℝ)) 5, ← Real.rpow_mul hu,
    show (1.8 : ℝ) * ((5 : ℕ) : ℝ) = ((9 : ℕ) : ℝ) by norm_num, Real.rpow_natCast]

lemma den_cast_pos (q : ℚ) : (0 : ℝ) < (q.den : ℝ) := by
  exact_mod_cast q.den_pos

/-- The comparison `scoreGe` decides the real score order: `scoreGe b a` holds
exactly when `a.score ≤ b.score`. -/
lemma score_le_score_iff (a b : ScoredEvent) : a.score ≤ b.score ↔ scoreGe b a := by
  have h5odd : Odd 5 := ⟨2, by norm_num⟩
  have hua : (0 : ℝ) < ((a.ageSec : ℝ) + 7200) / 3600 := by positivity
  have hub : (0 : ℝ) < ((b.ageSec : ℝ) + 7200) / 3600 := by positivity
  have hda : (0 : ℝ) < (a.scoreP.den : ℝ) := den_cast_pos _
  have hdb : (0 : ℝ) < (b.scoreP.den : ℝ) := den_cast_pos _
  rw [ScoredEvent.score, ScoredEvent.score,
    show (a.ageSec : ℝ) / 3600 + 2 = ((a.ageSec : ℝ) + 7200) / 3600 by ring,
    show (b.ageSec : ℝ) / 3600 + 2 = ((b.ageSec : ℝ) + 7200) / 3600 by ring,
    div_le_div_iff₀ (Real.rpow_pos_of_pos hua _) (Real.rpow_pos_of_pos hub _),
    ← (Odd.strictMono_pow (R := ℝ) h5odd).le_iff_le]
  simp only [mul_pow, rpow_nine_of_five hua.le, rpow_nine_of_five hub.le]
  rw [scoreGe, ← @Int.cast_le ℝ _ _ _]
  push_cast
  rw [Rat.cast_def, Rat.cast_def, div_pow, div_pow, div_pow, div_pow,
    div_mul_div_comm, div_mul_div_comm,
    div_le_div_iff₀ (by positivity) (by positivity)]
  constructor
  · intro h
    have h2 : ((a.scoreP.num : ℝ) ^ 5 * (b.scoreP.den : ℝ) ^ 5 * ((b.ageSec : ℝ) + 7200) ^ 9)
          * (3600 : ℝ) ^ 9
        ≤ ((b.scoreP.num : ℝ) ^ 5 * (a.scoreP.den : ℝ) ^ 5 * ((a.ageSec : ℝ) + 7200) ^ 9)
          * (3600 : ℝ) ^ 9 := by linarith [h]
    exact le_of_mul_le_mul_right h2 (by positivity)
  · intro h
    have h2 := mul_le_mul_of_nonneg_right h (show (0 : ℝ) ≤ (3600 : ℝ) ^ 9 by positivity)
    linarith [h2]

instance : IsTotal ScoredEvent scoreGe :=
  ⟨fun _ _ => Int.le_total _ _⟩

instance : IsTrans ScoredEvent scoreGe :=
  ⟨fun a b c hab hbc => by
    rw [← score_le_score_iff] at hab hbc ⊢
    exact hbc.trans hab⟩

end NewsBackend

namespace NewsBackend

/-! Helper lemmas about the pipeline. -/

lemma processEvent_scored (now : ℤ) (ev : RawEvent) (P : ℚ) (s : String) (dt : DateTime)
    (hP : pyFloat (ev.importance.getD (.vNum 0)) = some P)
    (hs : ev.earliest_published.getD (.vStr "") = .vStr s)
    (hdt : parse_publish_date s = some dt) :
    processEvent now ev = .ok (some
      { title := ev.group_title, summary := ev.group_summary,
        published_at := ev.earliest_published, scoreP := P,
        ageSec := (now - toEpoch dt).toNat }) := by
  simp only [processEvent, hP, hs, hdt]

lemma processEvent_skip_importance (now : ℤ) (ev : RawEvent)
    (h : pyFloat (ev.importance.getD (.vNum 0)) = none) :
    processEvent now ev = .ok none := by
  simp only [processEvent, h]

lemma processEvent_skip_parse (now : ℤ) (ev : RawEvent) (P : ℚ) (s : String)
    (hP : pyFloat (ev.importance.getD (.vNum 0)) = some P)
    (hs : ev.earliest_published.getD (.vStr "") = .vStr s)
    (hdt : parse_publish_date s = none) :
    processEvent now ev = .ok none := by
  simp only [processEvent, hP, hs, hdt]

/-- Skipped events contribute nothing to the scored list. -/
lemma processEvents_skip (now : ℤ) (bad : RawEvent)
    (hbad : processEvent now bad = .ok none) :
    ∀ L1 L2 : List RawEvent,
      processEvents now (L1 ++ bad :: L2) = processEvents now (L1 ++ L2)
  | [], L2 => by simp only [List.nil_append, processEvents, hbad]
  | ev :: L1, L2 => by
    have ih := processEvents_skip now bad hbad L1 L2
    show processEvents now (ev :: (L1 ++ bad :: L2)) = processEvents now (ev :: (L1 ++ L2))
    simp only [processEvents, ih]

/-- When every event of the batch scores, `processEvents` succeeds and yields
one entry per event. -/
lemma processEvents_total (now : ℤ) :
    ∀ L : List RawEvent, (∀ ev ∈ L, ∃ se, processEvent now ev = .ok (some se)) →
      ∃ scored, processEvents now L = .ok scored ∧ scored.length = L.length
  | [], _ => ⟨[], rfl, rfl⟩
  | ev :: L, h => by
    obtain ⟨se, hse⟩ := h ev (List.mem_cons_self ev L)
    obtain ⟨scored, hsc, hlen⟩ :=
      processEvents_total now L (fun x hx => h x (List.mem_cons_of_mem ev hx))
    refine ⟨se :: scored, ?_, ?_⟩
    · simp only [processEvents, hse, hsc, Except.map]
    · simpa using hlen

lemma rankSort_sorted (l : List ScoredEvent) : (rankSort l).Sorted scoreGe :=
  List.sorted_insertionSort scoreGe l

lemma rankSort_perm (l : List ScoredEvent) : (rankSort l).Perm l :=
  List.perm_insertionSort scoreGe l

lemma update_hot_list_ok (now : ℤ) (cache : List ScoredEvent)
    (events : List RawEvent) (scored : List ScoredEvent)
    (h : processEvents now events = .ok scored) :
    update_hot_list (.success (some events)) cache now
      = .ok ((rankSort scored).take 50) := by
  simp only [update_hot_list, Option.getD, h]

end NewsBackend

namespace NewsBackend

/-- C8: if the upstream HTTP call fails (connection error, timeout, or a
non-2xx status turned into an exception — all the paths caught at
`src/main.py:46-52` and modelled by `FetchResult.failure`), the cycle returns
without raising (`.ok`) and the snapshot store's content after the cycle
equals its content before the cycle: no mutation happens on fetch failure. -/
theorem claim_C8 (cache : List ScoredEvent) (now : ℤ) :
    update_hot_list .failure cache now = .ok cache ∧
    scheduler_step .failure now cache = cache :=
  ⟨rfl, rfl⟩

/-- C3 counterexample: the claim says that when the `articles` field is absent
from a successful response the previously published snapshot remains published
unchanged.  In the code, `data.get("articles", [])` yields the empty list,
which is ranked and **published**: a nonempty prior cache is overwritten by
the empty snapshot. -/
theorem claim_C3_counterexample :
    update_hot_list (.success none) [se10] 0 = .ok [] ∧
    scheduler_step (.success none) 0 [se10] = [] ∧
    ([] : List ScoredEvent) ≠ [se10] := by
  refine ⟨rfl, rfl, ?_⟩
  intro h
  exact List.noConfusion h

/-- C3 (amended): only a fetch **failure** (transport error, non-2xx status,
bad body) leaves the previously published snapshot unchanged; a successful
response without an `articles` field yields the empty event list, which is
ranked and published as the empty snapshot, replacing the previous one. -/
theorem claim_C3_amended (cache : List ScoredEvent) (now : ℤ) :
    update_hot_list .failure cache now = .ok cache ∧
    update_hot_list (.success none) cache now = .ok [] ∧
    scheduler_step (.success none) now cache = [] :=
  ⟨rfl, rfl, rfl⟩

/-- C9: the scheduler loop never terminates because of an exception raised
inside a cycle: when `update_hot_list` raises (`.error`), the
`except Exception` at `src/main.py:120-124` catches it, the cache is left
unchanged — the same outcome as a cycle whose fetch produced EMPTY — and the
loop proceeds to the next cycle (`scheduler_run` steps on regardless). -/
theorem claim_C9 (env : ℕ → FetchResult × ℤ) (n : ℕ) (e : Unit)
    (h : update_hot_list (env n).1 (scheduler_run env n) (env n).2 = .error e) :
    scheduler_run env (n + 1)
        = scheduler_step (env n).1 (env n).2 (scheduler_run env n) ∧
    scheduler_run env (n + 1) = scheduler_run env n ∧
    scheduler_run env (n + 1)
        = scheduler_step .failure (env n).2 (scheduler_run env n) := by
  refine ⟨rfl, ?_, ?_⟩
  · simp only [scheduler_run, scheduler_step]
    rw [h]
  · simp only [scheduler_run, scheduler_step]
    rw [h]
    rfl

theorem claim_C9_witness :
    (update_hot_list (envErr 0).1 (scheduler_run envErr 0) (envErr 0).2 = .error ()) ∧
    scheduler_run envErr 1 = scheduler_run envErr 0 :=
  ⟨rfl, (claim_C9 envErr 0 () rfl).2.1⟩

/-- C4 counterexample: the claim says an event whose importance is present but
not coercible to float is scored with `P = 0` and kept.  In the code,
`float(None)` raises `TypeError`, which the handler at `src/main.py:92`
catches by **skipping the whole event**: with a perfectly parseable timestamp,
the published snapshot is empty instead of containing the event with score
`0 / (T+2)^1.8`. -/
theorem claim_C4_counterexample :
    parse_publish_date ts0 = some dt0 ∧
    processEvent now0 evNullImp = .ok none ∧
    update_hot_list (.success (some [evNullImp])) [] now0 = .ok [] :=
  ⟨by decide, rfl, rfl⟩

/-- C4 (amended): `P` is the importance field coerced to float, and `P = 0`
when the field is **missing** (the `.get` default `0`); but an importance that
is present and not coercible does not give `P = 0` — the coercion raises and
the event is skipped (removed from the batch) before its timestamp is even
read. -/
theorem claim_C4_amended (now : ℤ) (ev ev2 : RawEvent) (v : Value) (s : String)
    (dt : DateTime)
    (h1 : ev.importance = some v) (h2 : pyFloat v = none)
    (h3 : ev2.importance = none)
    (h4 : ev2.earliest_published.getD (.vStr "") = .vStr s)
    (h5 : parse_publish_date s = some dt) :
    processEvent now ev = .ok none ∧
    ∃ se, processEvent now ev2 = .ok (some se) ∧ se.scoreP = 0 := by
  constructor
  · apply processEvent_skip_importance
    rw [h1]
    exact h2
  · have hP : pyFloat (ev2.importance.getD (.vNum 0)) = some 0 := by rw [h3]; rfl
    exact ⟨_, processEvent_scored now ev2 0 s dt hP h4 h5, rfl⟩

theorem claim_C4_amended_witness :
    evNullImp.importance = some Value.vNull ∧
    pyFloat .vNull = none ∧
    evBare.importance = none ∧
    evBare.earliest_published.getD (.vStr "") = .vStr ts0 ∧
    parse_publish_date ts0 = some dt0 ∧
    (processEvent now0 evNullImp = .ok none ∧
      ∃ se, processEvent now0 evBare = .ok (some se) ∧ se.scoreP = 0) :=
  ⟨rfl, rfl, rfl, rfl, by decide,
    claim_C4_amended now0 evNullImp evBare .vNull ts0 dt0 rfl rfl rfl rfl (by decide)⟩

end NewsBackend

namespace NewsBackend

/-- The stored clamped age, in hours and as a real: `Int.toNat` is exactly
the code's `if T < 0: T = 0` clamp. -/
lemma ageSec_real (now p : ℤ) :
    (((now - p).toNat : ℝ)) / 3600 = max 0 (((now : ℝ) - (p : ℝ)) / 3600) := by
  rcases le_total (now - p) 0 with h | h
  · rw [Int.toNat_of_nonpos h]
    have hc : ((now : ℝ) - (p : ℝ)) ≤ 0 := by exact_mod_cast h
    rw [show (((0 : ℕ) : ℝ)) / 3600 = 0 by norm_num,
      max_eq_left (div_nonpos_iff.mpr (Or.inr ⟨hc, by norm_num⟩))]
  · have hc : (((now - p).toNat : ℕ) : ℝ) = (now : ℝ) - (p : ℝ) := by
      exact_mod_cast congrArg (Int.cast : ℤ → ℝ) (Int.toNat_of_nonneg h)
    rw [hc, max_eq_right (div_nonneg (by exact_mod_cast h) (by norm_num))]

/-- C1: for every raw event whose importance coerces to a float `P` and whose
`earliest_published` parses under the fixed pattern to the instant `dt`, the
ranking engine scores it and assigns `score = P / (T + 2) ^ 1.8`, where `T`
is the elapsed time in hours from `dt` to the current time, clamped to 0 when
negative. -/
theorem claim_C1 (now : ℤ) (ev : RawEvent) (P : ℚ) (s : String) (dt : DateTime)
    (hP : pyFloat (ev.importance.getD (.vNum 0)) = some P)
    (hs : ev.earliest_published.getD (.vStr "") = .vStr s)
    (hdt : parse_publish_date s = some dt) :
    ∃ se, processEvent now ev = .ok (some se) ∧ se.scoreP = P ∧
      se.score
        = (P : ℝ) / ((max 0 (((now : ℝ) - (toEpoch dt : ℝ)) / 3600) + 2) ^ (1.8 : ℝ)) := by
  refine ⟨_, processEvent_scored now ev P s dt hP hs hdt, rfl, ?_⟩
  simp only [ScoredEvent.score]
  rw [ageSec_real]

/-- C1 witness: the spec's end-to-end scenario: importance 10, published
2025-06-18 09:00:00 UTC, evaluated at 2025-06-18 11:00:00 UTC gives `T = 2`
and `score = 10 / 4 ^ 1.8`. -/
theorem claim_C1_witness :
    pyFloat ((evGood 10).importance.getD (.vNum 0)) = some 10 ∧
    (evGood 10).earliest_published.getD (.vStr "") = .vStr ts0 ∧
    parse_publish_date ts0 = some dt0 ∧
    max 0 (((now0 : ℝ) - (toEpoch dt0 : ℝ)) / 3600) = 2 ∧
    ∃ se, processEvent now0 (evGood 10) = .ok (some se) ∧ se.scoreP = 10 ∧
      se.score = (10 : ℝ) / (4 : ℝ) ^ (1.8 : ℝ) := by
  have hep : ((toEpoch dt0 : ℤ) : ℝ) = 1750237200 := by
    norm_num [show toEpoch dt0 = 1750237200 from by decide]
  have hmax : max 0 (((now0 : ℝ) - (toEpoch dt0 : ℝ)) / 3600) = 2 := by
    rw [hep]
    norm_num [now0]
  obtain ⟨se, h1, h2, h3⟩ := claim_C1 now0 (evGood 10) 10 ts0 dt0 rfl rfl (by decide)
  refine ⟨rfl, rfl, by decide, hmax, se, h1, h2, ?_⟩
  rw [h3, hmax]
  norm_num

/-- C10: a raw event missing its `group_title` or `group_summary` is never
skipped: provided its importance coerces and its timestamp parses, it appears
as a scored entry whose `title` (resp. `summary`) is null (`.get` returns
`None`), and its `published_at` is the original `earliest_published` string
verbatim. -/
theorem claim_C10 (now : ℤ) (ev : RawEvent) (P : ℚ) (s : String) (dt : DateTime)
    (hP : pyFloat (ev.importance.getD (.vNum 0)) = some P)
    (hs : ev.earliest_published.getD (.vStr "") = .vStr s)
    (hdt : parse_publish_date s = some dt) :
    ∃ se, processEvent now ev = .ok (some se) ∧
      se.title = ev.group_title ∧ se.summary = ev.group_summary ∧
      se.published_at = ev.earliest_published ∧ se.published_at = some (.vStr s) ∧
      (ev.group_title = none → se.title = none) ∧
      (ev.group_summary = none → se.summary = none) := by
  have hpub : ev.earliest_published = some (.vStr s) := by
    cases hcase : ev.earliest_published with
    | some v =>
      rw [hcase, Option.getD_some] at hs
      rw [hs]
    | none =>
      rw [hcase, Option.getD_none] at hs
      have hs0 : s = "" := (Value.vStr.injEq _ _).mp hs.symm
      rw [hs0] at hdt
      have hnone : parse_publish_date "" = none := by decide
      rw [hnone] at hdt
      exact Option.noConfusion hdt
  refine ⟨_, processEvent_scored now ev P s dt hP hs hdt, rfl, rfl, rfl, hpub, ?_, ?_⟩
  · intro h
    exact h
  · intro h
    exact h

/-- C10 witness: an event carrying only a timestamp is kept, with null title
and summary and the original string as `published_at`. -/
theorem claim_C10_witness :
    pyFloat (evBare.importance.getD (.vNum 0)) = some 0 ∧
    evBare.earliest_published.getD (.vStr "") = .vStr ts0 ∧
    parse_publish_date ts0 = some dt0 ∧ evBare.group_title = none ∧
    ∃ se, processEvent now0 evBare = .ok (some se) ∧
      se.title = evBare.group_title ∧ se.summary = evBare.group_summary ∧
      se.published_at = evBare.earliest_published ∧ se.published_at = some (.vStr ts0) ∧
      (evBare.group_title = none → se.title = none) ∧
      (evBare.group_summary = none → se.summary = none) :=
  ⟨rfl, rfl, by decide, rfl, claim_C10 now0 evBare 0 ts0 dt0 rfl rfl (by decide)⟩

end NewsBackend

namespace NewsBackend

lemma pySplitSpace_no_space : ∀ xs : List Char, ' ' ∉ xs → pySplitSpace xs = [xs]
  | [], _ => rfl
  | c :: rest, h => by
    have hc : c ≠ ' ' := fun hc => h (hc ▸ List.mem_cons_self c rest)
    have ih := pySplitSpace_no_space rest (fun hr => h (List.mem_cons_of_mem c hr))
    simp only [pySplitSpace, if_neg hc, ih]

lemma pySplitSpace_append : ∀ xs ys : List Char, ' ' ∉ xs →
    pySplitSpace (xs ++ ' ' :: ys) = xs :: pySplitSpace ys
  | [], ys, _ => by simp [pySplitSpace]
  | c :: rest, ys, h => by
    have hc : c ≠ ' ' := fun hc => h (hc ▸ List.mem_cons_self c rest)
    have ih := pySplitSpace_append rest ys (fun hr => h (List.mem_cons_of_mem c hr))
    simp [pySplitSpace, if_neg hc, List.append_eq, ih]

/-- C7 counterexample: the claim says the publish time is obtained from the
first two *whitespace-separated* tokens.  On
`"2025-06-18  09:00:00 Wed"` (two spaces between date and time) the
whitespace-token reading parses successfully, but the code's
`s.split(" ")[0:2]` yields `["2025-06-18", ""]`, whose join
`"2025-06-18 "` fails the fixed pattern — the event is dropped. -/
theorem claim_C7_counterexample :
    parse_publish_date "2025-06-18  09:00:00 Wed" = none ∧
    specParsePublishDate "2025-06-18  09:00:00 Wed" = some ⟨2025, 6, 18, 9, 0, 0⟩ :=
  ⟨by decide, by decide⟩

/-- C7 (amended): the publish time is obtained by splitting
`earliest_published` at *single space characters* (consecutive spaces produce
empty tokens), taking the first two tokens, joining them with a space, and
parsing with the fixed pattern `YYYY-MM-DD HH:MM:SS` (whose interior space
matches a whitespace run) as UTC; everything after the second space-separated
token — in particular a weekday abbreviation — never affects the result. -/
theorem claim_C7_amended (a b r : String) (ha : ' ' ∉ a.data) (hb : ' ' ∉ b.data) :
    parse_publish_date (a ++ " " ++ b ++ " " ++ r) = strptimeYmdHms (a.data ++ ' ' :: b.data) ∧
    parse_publish_date (a ++ " " ++ b) = strptimeYmdHms (a.data ++ ' ' :: b.data) := by
  constructor
  · have hdata : (a ++ " " ++ b ++ " " ++ r).data
        = a.data ++ ' ' :: (b.data ++ ' ' :: r.data) := by
      simp [String.data_append, List.append_assoc]
    rw [parse_publish_date, date_str_part, hdata, pySplitSpace_append _ _ ha,
      pySplitSpace_append _ _ hb]
    rfl
  · have hdata : (a ++ " " ++ b).data = a.data ++ ' ' :: b.data := by
      simp [String.data_append, List.append_assoc]
    rw [parse_publish_date, date_str_part, hdata, pySplitSpace_append _ _ ha,
      pySplitSpace_no_space _ hb]
    rfl

theorem claim_C7_amended_witness :
    (' ' ∉ "2025-06-18".data) ∧ (' ' ∉ "09:00:00".data) ∧
    parse_publish_date ("2025-06-18" ++ " " ++ "09:00:00" ++ " " ++ "Wed")
      = strptimeYmdHms ("2025-06-18".data ++ ' ' :: "09:00:00".data) ∧
    strptimeYmdHms ("2025-06-18".data ++ ' ' :: "09:00:00".data)
      = some ⟨2025, 6, 18, 9, 0, 0⟩ :=
  ⟨by decide, by decide,
    (claim_C7_amended "2025-06-18" "09:00:00" "Wed" (by decide) (by decide)).1,
    by decide⟩

end NewsBackend

namespace NewsBackend

/-- C2 counterexample: the claim says any single event with malformed fields
is skipped individually and never aborts the scoring of the rest of the
batch.  But an event whose `earliest_published` is present and **not a
string** makes `.split(" ")` raise `AttributeError`, which the per-event
handler (`except (ValueError, TypeError, KeyError)`) does not catch: the whole
batch is aborted, the cache is left unchanged by the scheduler guard, and the
snapshot has 0 entries instead of N − 1 = 1. -/
theorem claim_C2_counterexample :
    processEvent now0 evBadTs = .error () ∧
    processEvents now0 [evGood 10, evBadTs] = .error () ∧
    update_hot_list (.success (some [evGood 10, evBadTs])) [] now0 = .error () ∧
    scheduler_step (.success (some [evGood 10, evBadTs])) now0 [] = [] ∧
    ([] : List ScoredEvent).length ≠ [evGood 10, evBadTs].length - 1 :=
  ⟨rfl, rfl, rfl, rfl, by decide⟩

/-- C2 (amended): an event whose importance is missing or non-coercible, or
whose `earliest_published` is a **string** that fails the fixed pattern, is
skipped individually and never aborts the batch: for a batch of N ≤ 51 events
of which exactly one has an unparseable `earliest_published` string (and the
rest score), the snapshot has exactly N − 1 entries and equals the ranking of
the other events alone.  (An `earliest_published` that is not a string,
however, aborts the whole batch — see the counterexample; and with N − 1 > 50
the cap of 50 applies.) -/
theorem claim_C2_amended (now : ℤ) (L1 L2 : List RawEvent) (bad : RawEvent)
    (P : ℚ) (s : String)
    (hgood : ∀ ev ∈ L1 ++ L2, ∃ se, processEvent now ev = .ok (some se))
    (himp : pyFloat (bad.importance.getD (.vNum 0)) = some P)
    (hstr : bad.earliest_published.getD (.vStr "") = .vStr s)
    (hparse : parse_publish_date s = none)
    (hlen : L1.length + L2.length ≤ 50) :
    ∃ scored, processEvents now (L1 ++ bad :: L2) = .ok scored ∧
      processEvents now (L1 ++ L2) = .ok scored ∧
      scored.length = (L1 ++ bad :: L2).length - 1 ∧
      ∀ cache, update_hot_list (.success (some (L1 ++ bad :: L2))) cache now
          = .ok (rankSort scored) := by
  have hbad : processEvent now bad = .ok none :=
    processEvent_skip_parse now bad P s himp hstr hparse
  have hskip := processEvents_skip now bad hbad L1 L2
  obtain ⟨scored, hsc, hlen2⟩ := processEvents_total now (L1 ++ L2) hgood
  have hlen3 : scored.length = (L1 ++ bad :: L2).length - 1 := by
    rw [hlen2]
    simp only [List.length_append, List.length_cons]
    omega
  have htake : (rankSort scored).take 50 = rankSort scored := by
    apply List.take_of_length_le
    rw [(rankSort_perm scored).length_eq, hlen2]
    simpa using hlen
  refine ⟨scored, by rw [hskip, hsc], hsc, hlen3, fun cache => ?_⟩
  rw [update_hot_list_ok now cache _ scored (by rw [hskip, hsc]), htake]

theorem claim_C2_amended_witness :
    pyFloat (evBadStr.importance.getD (.vNum 0)) = some 3 ∧
    evBadStr.earliest_published.getD (.vStr "") = .vStr "yesterday" ∧
    parse_publish_date "yesterday" = none ∧
    ∃ scored, processEvents now0 ([evGood 10] ++ evBadStr :: [evGood 5]) = .ok scored ∧
      processEvents now0 ([evGood 10] ++ [evGood 5]) = .ok scored ∧
      scored.length = ([evGood 10] ++ evBadStr :: [evGood 5]).length - 1 ∧
      ∀ cache, update_hot_list (.success (some ([evGood 10] ++ evBadStr :: [evGood 5])))
          cache now0 = .ok (rankSort scored) := by
  refine ⟨rfl, rfl, by decide,
    claim_C2_amended now0 [evGood 10] [evGood 5] evBadStr 3 "yesterday" ?_ rfl rfl
      (by decide) (by decide)⟩
  intro ev hev
  cases hev with
  | head => exact ⟨_, rfl⟩
  | tail _ h2 =>
    cases h2 with
    | head => exact ⟨_, rfl⟩
    | tail _ h3 => cases h3

/-- C5: for every input event list that scores without an uncaught error, the
published snapshot is `(rankSort scored).take 50`, hence has length at most
50; and when more than 50 events score successfully it has exactly 50
entries, which are a top-50 selection: the sorted list splits as kept ++
dropped with every kept entry scoring at least every dropped entry, and the
sort is a permutation of the scored events. -/
theorem claim_C5 (now : ℤ) (cache : List ScoredEvent) (events : List RawEvent)
    (scored : List ScoredEvent)
    (h : processEvents now events = .ok scored) :
    (∀ snap, update_hot_list (.success (some events)) cache now = .ok snap →
      snap.length ≤ 50) ∧
    (50 < scored.length →
      update_hot_list (.success (some events)) cache now
          = .ok ((rankSort scored).take 50) ∧
      ((rankSort scored).take 50).length = 50 ∧
      (rankSort scored).Perm scored ∧
      (rankSort scored).take 50 ++ (rankSort scored).drop 50 = rankSort scored ∧
      ∀ x ∈ (rankSort scored).take 50, ∀ y ∈ (rankSort scored).drop 50,
        y.score ≤ x.score) := by
  constructor
  · intro snap hsnap
    rw [update_hot_list_ok now cache events scored h] at hsnap
    rw [← Except.ok.inj hsnap]
    exact List.length_take_le 50 _
  · intro hgt
    refine ⟨update_hot_list_ok now cache events scored h, ?_,
      rankSort_perm scored, List.take_append_drop 50 _, ?_⟩
    · rw [List.length_take]
      exact min_eq_left (by rw [(rankSort_perm scored).length_eq]; omega)
    · intro x hx y hy
      exact (score_le_score_iff y x).mpr
        ((rankSort_sorted scored).rel_of_mem_take_of_mem_drop hx hy)

theorem claim_C5_witness :
    (processEvents now0 batch51
        = .ok ((processEvents now0 batch51).toOption.getD [])) ∧
    50 < ((processEvents now0 batch51).toOption.getD []).length ∧
    ((rankSort ((processEvents now0 batch51).toOption.getD [])).take 50).length = 50 := by
  have h : processEvents now0 batch51
      = .ok ((processEvents now0 batch51).toOption.getD []) := rfl
  have h2 : 50 < ((processEvents now0 batch51).toOption.getD []).length := by decide
  exact ⟨h, h2, ((claim_C5 now0 [] batch51 _ h).2 h2).2.1⟩

/-- C6: every produced snapshot is sorted by score in descending order — for
all adjacent index pairs, `score[i+1] ≤ score[i]` — and the sort is stable:
events with equal scores keep their relative order from the scored list (a
tied pair that is a sublist of the input stays a sublist of the sorted
list). -/
theorem claim_C6 (now : ℤ) (cache : List ScoredEvent) (events : List RawEvent)
    (scored snap : List ScoredEvent)
    (h : processEvents now events = .ok scored)
    (hu : update_hot_list (.success (some events)) cache now = .ok snap) :
    (∀ i (hi : i + 1 < snap.length),
      (snap.get ⟨i + 1, hi⟩).score ≤ (snap.get ⟨i, Nat.lt_of_succ_lt hi⟩).score) ∧
    snap = (rankSort scored).take 50 ∧
    (∀ a b : ScoredEvent, a.score = b.score → [a, b].Sublist scored →
      [a, b].Sublist (rankSort scored)) := by
  have hsnap : snap = (rankSort scored).take 50 := by
    rw [update_hot_list_ok now cache events scored h] at hu
    exact (Except.ok.inj hu).symm
  subst hsnap
  refine ⟨?_, rfl, ?_⟩
  · have hsorted : ((rankSort scored).take 50).Sorted scoreGe :=
      List.Pairwise.sublist (List.take_sublist 50 _) (rankSort_sorted scored)
    intro i hi
    exact (score_le_score_iff _ _).mpr
      (hsorted.rel_get_of_lt (Fin.mk_lt_mk.mpr (Nat.lt_succ_self i)))
  · intro a b heq hsub
    exact List.pair_sublist_insertionSort ((score_le_score_iff b a).mp (le_of_eq heq.symm))
      hsub

theorem claim_C6_witness :
    (processEvents now0 [evGood 1, evGood 2]
        = .ok ((processEvents now0 [evGood 1, evGood 2]).toOption.getD [])) ∧
    (update_hot_list (.success (some [evGood 1, evGood 2])) [] now0
        = .ok ((rankSort ((processEvents now0 [evGood 1, evGood 2]).toOption.getD [])).take 50)) ∧
    ∀ i (hi : i + 1 <
        ((rankSort ((processEvents now0 [evGood 1, evGood 2]).toOption.getD [])).take 50).length),
      (((rankSort ((processEvents now0 [evGood 1, evGood 2]).toOption.getD [])).take 50).get
          ⟨i + 1, hi⟩).score
        ≤ (((rankSort ((processEvents now0 [evGood 1, evGood 2]).toOption.getD [])).take 50).get
          ⟨i, Nat.lt_of_succ_lt hi⟩).score := by
  have h : processEvents now0 [evGood 1, evGood 2]
      = .ok ((processEvents now0 [evGood 1, evGood 2]).toOption.getD []) := rfl
  have hu : update_hot_list (.success (some [evGood 1, evGood 2])) [] now0
      = .ok ((rankSort ((processEvents now0 [evGood 1, evGood 2]).toOption.getD [])).take 50) :=
    update_hot_list_ok now0 [] _ _ h
  exact ⟨h, hu, (claim_C6 now0 [] [evGood 1, evGood 2] _ _ h hu).1⟩

end NewsBackend
